import Mathlib

/-!
The discord-log bridge: event handlers, teardown and configuration.

A shallow embedding of `main.go` and `config/config.go`.

* Side effects are explicit.  The structured logger is a sink of records
  (`Sink`), the process environment seen by cleanup closures is a trace of
  effects (`World`).
* Values of Go integer types are held by their numeric value.  The program
  observes the message fields only through the conversions `uint64(..)` and
  `int64(..)`, which are injective on every integer type of at most 64 bits,
  so each field is represented by the value of its conversion.
* Library calls (`state.State.Message`, `gelf.Writer.Close`,
  `net.LookupHost`, `netip.ParseAddr`) are parameters.
-/

namespace DiscordLog

/-! ## Data model -/

/-- Instants of `time.Time`, as nanoseconds relative to the zero instant. -/
structure Time where
  nanos : Int
deriving DecidableEq, Repr

/-- Type `discord.Timestamp`, a named copy of `time.Time`. -/
structure Timestamp where
  t : Time
deriving DecidableEq, Repr

/-- Method `Timestamp.Time`, the conversion back to `time.Time`. -/
def Timestamp.Time (ts : Timestamp) : Time := ts.t

/-- Type `discord.User`, reduced to the field the program reads. -/
structure User where
  Username : String
deriving DecidableEq, Repr

/-- Type `discord.Message`, reduced to the fields the program reads.
`ID`, `ChannelID`, `GuildID` and `MsgType` (the Go field `Type`) hold the
value of `uint64(field)`,
`Flags` holds the value of `int64(m.Flags)`. -/
structure Message where
  ID : Nat
  ChannelID : Nat
  GuildID : Nat
  MsgType : Nat
  Flags : Int
  Timestamp : DiscordLog.Timestamp
  EditedTimestamp : DiscordLog.Timestamp
  Author : User
  Content : String
deriving DecidableEq, Repr

/-- Values of `slog.Value` built by the program. -/
inductive Value where
  | String (s : String)
  | Uint64 (n : Nat)
  | Int64 (i : Int)
  | Time (t : Time)
  | Level (l : Int)
deriving DecidableEq, Repr

/-- Type `slog.Attr`: a key and a value. -/
structure Attr where
  Key : String
  Value : DiscordLog.Value
deriving DecidableEq, Repr

/-- Constant `slog.LevelInfo`. -/
def LevelInfo : Int := 0

/-- Record handed to the slog handler by `Logger.Log`: level, message and the
attributes in argument order (the wall-clock time of the call is left out). -/
structure Record where
  Level : Int
  Message : String
  Attrs : List Attr
deriving DecidableEq, Repr

/-- Records received by the handler of `cli.slogger`, oldest first. -/
abbrev Sink := List Record

/-- Method `Logger.Log`: one call hands one record to the handler. -/
def Log (level : Int) (msg : String) (attrs : List Attr) (sink : Sink) : Sink :=
  sink ++ [{ Level := level, Message := msg, Attrs := attrs }]

/-- Errors of the cache lookup `state.State.Message`. -/
inductive LookupError where
  | notFound
  | other (msg : String)
deriving DecidableEq, Repr

/-- Type `state.State`, reduced to its message lookup by (channel, id). -/
structure State where
  Message : Nat → Nat → Except LookupError DiscordLog.Message

/-- Event `gateway.MessageDeleteEvent`. -/
structure MessageDeleteEvent where
  ID : Nat
  ChannelID : Nat
  GuildID : Nat
deriving DecidableEq, Repr

/-- Event `gateway.MessageDeleteBulkEvent`. -/
structure MessageDeleteBulkEvent where
  IDs : List Nat
  ChannelID : Nat
  GuildID : Nat
deriving DecidableEq, Repr

/-- Event `gateway.MessageCreateEvent`, which embeds the message. -/
structure MessageCreateEvent where
  Message : DiscordLog.Message
deriving DecidableEq, Repr

/-- Event `gateway.MessageUpdateEvent`, which embeds the message. -/
structure MessageUpdateEvent where
  Message : DiscordLog.Message
deriving DecidableEq, Repr

/-! ## main.go: record construction -/

/-- Method `CLI.LogMessage` (main.go 156-170). -/
def LogMessage (m : Message) (action : String) (sink : Sink) : Sink :=
  Log LevelInfo action
    [ ⟨"action", .String action⟩,
      ⟨"id", .Uint64 m.ID⟩,
      ⟨"channel", .Uint64 m.ChannelID⟩,
      ⟨"guild", .Uint64 m.GuildID⟩,
      ⟨"type", .Uint64 m.MsgType⟩,
      ⟨"flags", .Int64 m.Flags⟩,
      ⟨"timestamp", .Time m.Timestamp.Time⟩,
      ⟨"edited", .Time m.EditedTimestamp.Time⟩,
      ⟨"author", .String m.Author.Username⟩,
      ⟨"content", .String m.Content⟩ ]
    sink

/-- Method `CLI.LogDelete` (main.go 172-180). -/
def LogDelete (messageID channelID guildID : Nat) (sink : Sink) : Sink :=
  Log LevelInfo "delete"
    [ ⟨"action", .String "delete"⟩,
      ⟨"id", .Uint64 messageID⟩,
      ⟨"channel", .Uint64 channelID⟩,
      ⟨"guild", .Uint64 guildID⟩ ]
    sink

/-! ## main.go: the event handlers registered in `RunE` -/

/-- Handler of `MessageDeleteEvent` (main.go 117-125). -/
def onMessageDelete (s : State) (c : MessageDeleteEvent) (sink : Sink) : Sink :=
  match s.Message c.ChannelID c.ID with
  | .error _ => LogDelete c.ID c.ChannelID c.GuildID sink
  | .ok m => LogMessage m "delete" sink

/-- Handler of `MessageCreateEvent` (main.go 127-129). -/
def onMessageCreate (c : MessageCreateEvent) (sink : Sink) : Sink :=
  LogMessage c.Message "create" sink

/-- Handler of `MessageUpdateEvent` (main.go 131-133). -/
def onMessageUpdate (c : MessageUpdateEvent) (sink : Sink) : Sink :=
  LogMessage c.Message "update" sink

/-- Body of the loop over `c.IDs` in the bulk handler (main.go 137-142). -/
def bulkStep (s : State) (channelID guildID : Nat) (sink : Sink) (id : Nat) : Sink :=
  match s.Message channelID id with
  | .error _ => LogDelete id channelID guildID sink
  | .ok m => LogMessage m "delete" sink

/-- Handler of `MessageDeleteBulkEvent` (main.go 135-144). -/
def onMessageDeleteBulk (s : State) (c : MessageDeleteBulkEvent) (sink : Sink) : Sink :=
  c.IDs.foldl (bulkStep s c.ChannelID c.GuildID) sink

/-- The four lifecycle events the router subscribes to. -/
inductive Event where
  | Created (c : MessageCreateEvent)
  | Updated (c : MessageUpdateEvent)
  | Deleted (c : MessageDeleteEvent)
  | BulkDeleted (c : MessageDeleteBulkEvent)
deriving DecidableEq, Repr

/-- Dispatch of an event to the handler registered for its type. -/
def dispatch (s : State) : Event → Sink → Sink
  | .Created c => onMessageCreate c
  | .Updated c => onMessageUpdate c
  | .Deleted c => onMessageDelete s c
  | .BulkDeleted c => onMessageDeleteBulk s c

/-! ## main.go: attribute rewriting -/

/-- Option `ReplaceAttr` of the JSON handler (main.go 83-89). -/
def ReplaceAttr (_groups : List String) (a : Attr) : Attr :=
  if a.Key = "level" then
    { a with Key := "severity" }
  else
    a

/-! ## main.go: cleanup list and teardown -/

/-- Observable effects of cleanup closures. -/
inductive Effect where
  | call (name : String)
  | log (line : String)
deriving DecidableEq, Repr

/-- Trace of effects performed so far, oldest first. -/
abbrev World := List Effect

/-- Outcome of a call of a Go procedure: it returns, or it panics with a
value; either way it leaves an environment behind. -/
inductive Outcome where
  | returned (w : World)
  | panicked (w : World) (value : String)
deriving DecidableEq, Repr

/-- Go type `func()`: a procedure acting on the environment.  It has no
result, so towards its caller it can only return or panic. -/
abbrev Func := World → Outcome

/-- Type `CLI` (main.go 52-58), reduced to the cancellation cause of `ctx`
(none while the context is live) and the cleanup list. -/
structure CLI where
  cause : Option String
  cleanup : List Func

/-- Function `context.CancelCauseFunc`: the first recorded cause wins. -/
def CancelCause (cli : CLI) (cause : String) : CLI :=
  match cli.cause with
  | some _ => cli
  | none => { cli with cause := some cause }

/-- Result of `CLI.PostRunE`: the receiver afterwards, the environment
afterwards, the returned error, and the value of the panic that left the
method instead of a return, if any. -/
structure PostRun where
  cli : CLI
  world : World
  err : Option String
  panic : Option String

/-- Loop `for _, f := range cli.cleanup { f() }` (main.go 100-102): the
elements are called front to back; nothing recovers a panic, so a panic of
one element ends the loop. -/
def runCleanup : List Func → World → Outcome
  | [], w => .returned w
  | f :: fs, w =>
    match f w with
    | .returned w1 => runCleanup fs w1
    | .panicked w1 value => .panicked w1 value

/-- Method `CLI.PostRunE` (main.go 96-104): cancel, reverse the cleanup slice
in place, call every element front to back, return nil.  The method has no
deferred call: a panic of a cleanup closure leaves it before the return. -/
def PostRunE (cli : CLI) (w : World) : PostRun :=
  let cli := CancelCause cli "context canceled"
  let cli := { cli with cleanup := cli.cleanup.reverse }
  match runCleanup cli.cleanup w with
  | .returned w1 => { cli := cli, world := w1, err := none, panic := none }
  | .panicked w1 value => { cli := cli, world := w1, err := none, panic := some value }

/-- Closure registered by `PreRunE` (main.go 74-79): close the gelf writer
and, when `Close` returns an error, log it and return.  `Close` is the
writer's `Close` method; the line goes to the standard logger, which
`PreRunE` points at the output writer of the command (main.go 63). -/
def gelfCloseAction (Close : World → World × Option String) : Func := fun w =>
  match Close w with
  | (w1, some err) => .returned (w1 ++ [.log ("failed to close gelf writer: " ++ err)])
  | (w1, none) => .returned w1

/-- Registration step of `PreRunE` (main.go 74): append to the cleanup list. -/
def register (cli : CLI) (f : Func) : CLI :=
  { cli with cleanup := cli.cleanup ++ [f] }

/-! ## config/config.go -/

/-- Type `netip.Addr`: the zero value (not valid), an IPv4 address of 32
bits, or an IPv6 address of two 64-bit halves with a zone. -/
inductive Addr where
  | zero
  | v4 (ip : Nat)
  | v6 (hi lo : Nat) (zone : String)
deriving DecidableEq, Repr

/-- Method `Addr.IsValid`: false for the zero value only. -/
def Addr.IsValid : Addr → Bool
  | .zero => false
  | _ => true

/-- Method `Addr.Is4`: an IPv4 address; false for IPv4-mapped IPv6. -/
def Addr.Is4 : Addr → Bool
  | .v4 _ => true
  | _ => false

/-- Method `Addr.Is6`: an IPv6 address, IPv4-mapped ones included. -/
def Addr.Is6 : Addr → Bool
  | .v6 _ _ _ => true
  | _ => false

/-- Method `Addr.Is4In6`: an IPv4-mapped IPv6 address `::ffff:a.b.c.d`. -/
def Addr.Is4In6 : Addr → Bool
  | .v6 hi lo _ => hi == 0 && lo / 2 ^ 32 == 0xffff
  | _ => false

/-- Function `strings.TrimLeft`: drop every leading character contained in
the cutset. -/
def TrimLeft (s cutset : String) : String :=
  ⟨s.data.dropWhile (fun c => cutset.data.contains c)⟩

/-- Split of a character list at the first occurrence of `sep`. -/
def cutAt (sep : Char) : List Char → Option (List Char × List Char)
  | [] => none
  | c :: cs =>
    if c = sep then some ([], cs)
    else match cutAt sep cs with
      | some (a, b) => some (c :: a, b)
      | none => none

/-- Function `strings.SplitN(s, ":", 2)`: at most two parts, cut at the first
colon. -/
def SplitN2 (s : String) : List String :=
  match cutAt ':' s.data with
  | some (a, b) => [⟨a⟩, ⟨b⟩]
  | none => [s]

/-- Function `net.JoinHostPort`: a host containing a colon is bracketed. -/
def JoinHostPort (host port : String) : String :=
  if host.data.contains ':' then "[" ++ host ++ "]:" ++ port
  else host ++ ":" ++ port

/-- Type `Config` (config.go 14-18). -/
structure Config where
  DiscordToken : String
  IsBot : Bool
  GraylogAddress : String
deriving DecidableEq, Repr

/-- Library procedures called by `Validate`: `net.LookupHost`,
`netip.ParseAddr` and `netip.Addr.String`. -/
structure Net where
  LookupHost : String → Except String (List String)
  ParseAddr : String → Except String Addr
  AddrString : Addr → String

/-- Errors returned by `Validate`, one per `fmt.Errorf` call. -/
inductive ValidateError where
  | emptyToken
  | invalidAddress (address : String)
  | resolveFailed (host err : String)
  | parseFailed (err : String)
  | noneSelected (host : String) (ips : List String)
deriving DecidableEq, Repr

/-- Token normalisation of `Validate` (config.go 25-29). -/
def normalizeToken (token : String) (isBot : Bool) : String :=
  if isBot then "Bot " ++ TrimLeft token "Bot "
  else TrimLeft token "Bot "

/-- Address selection loop of `Validate` (config.go 44-59), started with
`selectedAddr` and the addresses still to visit; `break` ends it early. -/
def selectLoop (ParseAddr : String → Except String Addr) :
    Addr → List String → Except ValidateError Addr
  | selectedAddr, [] => .ok selectedAddr
  | selectedAddr, ip :: ips =>
    match ParseAddr ip with
    | .error err => .error (.parseFailed err)
    | .ok addr =>
      if !selectedAddr.IsValid then
        if addr.Is4 then .ok addr
        else selectLoop ParseAddr addr ips
      else if addr.Is4 || addr.Is4In6 then selectLoop ParseAddr addr ips
      else selectLoop ParseAddr selectedAddr ips

/-- Method `Config.Validate` (config.go 20-68): the configuration after the
call and the returned error.  Assignments made before an error return stay. -/
def Validate (net : Net) (cfg : Config) : Config × Option ValidateError :=
  if cfg.DiscordToken = "" then (cfg, some .emptyToken)
  else
    let cfg := { cfg with DiscordToken := normalizeToken cfg.DiscordToken cfg.IsBot }
    match SplitN2 cfg.GraylogAddress with
    | [host, port] =>
      match net.LookupHost host with
      | .error err => (cfg, some (.resolveFailed host err))
      | .ok ips =>
        match selectLoop net.ParseAddr .zero ips with
        | .error e => (cfg, some e)
        | .ok selectedAddr =>
          if !selectedAddr.IsValid then (cfg, some (.noneSelected host ips))
          else
            ({ cfg with GraylogAddress := JoinHostPort (net.AddrString selectedAddr) port }, none)
    | _ => (cfg, some (.invalidAddress cfg.GraylogAddress))

/-- Fixture for `netip.ParseAddr` on four literals. -/
def sampleParseAddr (s : String) : Except String Addr :=
  if s = "127.0.0.1" then .ok (.v4 0x7f000001)
  else if s = "1.2.3.4" then .ok (.v4 0x01020304)
  else if s = "::1" then .ok (.v6 0 1 "")
  else if s = "::ffff:5.6.7.8" then .ok (.v6 0 0xffff05060708 "")
  else .error ("unable to parse IP: " ++ s)

/-- Fixture for `netip.Addr.String` on the values of `sampleParseAddr`. -/
def sampleAddrString (a : Addr) : String :=
  if a = .v4 0x7f000001 then "127.0.0.1"
  else if a = .v4 0x01020304 then "1.2.3.4"
  else if a = .v6 0 1 "" then "::1"
  else if a = .v6 0 0xffff05060708 "" then "::ffff:5.6.7.8"
  else "invalid IP"

/-- Fixture for the environment of `Validate`: every host resolves to `ips`. -/
def sampleNet (ips : List String) : Net :=
  { LookupHost := fun _ => .ok ips
    ParseAddr := sampleParseAddr
    AddrString := sampleAddrString }

/-! ## Specification-side vocabulary and fixtures -/

/-- Keys of the attributes of a record, in order. -/
def Record.keys (r : Record) : List String := r.Attrs.map (fun a => a.Key)

/-- The identifier fields of a log record. -/
def idKeys : List String := ["id", "channel", "guild"]

/-- The snapshot fields of a log record. -/
def snapshotKeys : List String :=
  ["type", "flags", "timestamp", "edited", "author", "content"]

/-- The three action tags. -/
def actionTags : List String := ["create", "update", "delete"]

/-- Holds when the record carries an `action` attribute with one of the three
tags. -/
def Record.hasAction (r : Record) : Bool :=
  actionTags.any (fun t => r.Attrs.contains ⟨"action", .String t⟩)

/-- Holds when the record carries every key of `ks`. -/
def Record.hasAll (r : Record) (ks : List String) : Bool :=
  ks.all (fun k => r.keys.contains k)

/-- Holds when the record carries no key of `ks`. -/
def Record.hasNone (r : Record) (ks : List String) : Bool :=
  ks.all (fun k => !r.keys.contains k)

/-- The LogRecord invariant for a record whose resolution outcome is `ok`: an
action out of the three tags, all identifier fields, the snapshot fields all
present or all absent, and present exactly when resolution succeeded. -/
def RecordInvariant (r : Record) (ok : Bool) : Prop :=
  r.hasAction = true ∧ r.hasAll idKeys = true ∧
  (r.hasAll snapshotKeys = true ∨ r.hasNone snapshotKeys = true) ∧
  (r.hasAll snapshotKeys = true ↔ ok = true)

/-- Resolution outcome of an event, one flag per record to emit, following
the wording of the record invariant: resolution succeeds for a record built
from an event body or from a successful cache lookup. -/
def resolutionSucceeded (s : State) : Event → List Bool
  | .Created _ => [true]
  | .Updated _ => [true]
  | .Deleted c => [(s.Message c.ChannelID c.ID).toBool]
  | .BulkDeleted c => c.IDs.map (fun id => (s.Message c.ChannelID id).toBool)

/-- The cache `s` with the lookup of `(channelID, id)` forced to miss. -/
def forceMiss (s : State) (channelID id : Nat) : State :=
  { Message := fun ch i =>
      if ch = channelID ∧ i = id then .error .notFound else s.Message ch i }

/-- Fixture: the message of the end-to-end scenario. -/
def sampleMessage : Message :=
  { ID := 42, ChannelID := 7, GuildID := 1, MsgType := 0, Flags := 0,
    Timestamp := ⟨⟨1700000000⟩⟩, EditedTimestamp := ⟨⟨0⟩⟩,
    Author := ⟨"alice"⟩, Content := "hi" }

/-- Fixture: a cache holding `sampleMessage`, failing with a lookup error on
id 44 and missing everything else. -/
def sampleState : State :=
  { Message := fun ch id =>
      if ch = 7 ∧ id = 42 then .ok sampleMessage
      else if id = 44 then .error (.other "lookup failed")
      else .error .notFound }

/-- Holds for an IPv4 address and for an IPv4-mapped IPv6 address, the two
kinds the selection loop accepts as a replacement. -/
def Addr.Is4Like (a : Addr) : Bool := a.Is4 || a.Is4In6

/-- A cleanup closure that acts as `f` on the environment and returns. -/
def returns (f : World → World) : Func := fun w => .returned (f w)

/-- Probe action: a cleanup closure that records its own name and returns. -/
def mark (name : String) : Func := returns (fun w => w ++ [.call name])

/-- Probe action: a cleanup closure that records its own name and then
panics with `value`. -/
def panics (name value : String) : Func := fun w => .panicked (w ++ [.call name]) value

/-- Effect of `gelfCloseAction` on the environment: the effect of `Close`,
then the logged line when `Close` returned an error. -/
def closeEffect (Close : World → World × Option String) : World → World := fun w =>
  match Close w with
  | (w1, some err) => w1 ++ [.log ("failed to close gelf writer: " ++ err)]
  | (w1, none) => w1

/-- Probe for `gelf.Writer.Close`: records the call and returns `err`. -/
def closer (name : String) (err : Option String) : World → World × Option String :=
  fun w => (w ++ [.call name], err)

/-- Names of the procedures called in a trace, in order. -/
def calls : World → List String
  | [] => []
  | .call n :: w => n :: calls w
  | .log _ :: w => calls w

/-- Lines logged in a trace, in order. -/
def logs : World → List String
  | [] => []
  | .call _ :: w => logs w
  | .log l :: w => l :: logs w

/-! ## Event handlers: theorems -/

theorem bulkStep_eq_onMessageDelete (s : State) (ch g : Nat) (sink : Sink) (id : Nat) :
    bulkStep s ch g sink id = onMessageDelete s ⟨id, ch, g⟩ sink := rfl

theorem onMessageDelete_frame (s : State) (c : MessageDeleteEvent) (sink : Sink) :
    onMessageDelete s c sink = sink ++ onMessageDelete s c [] := by
  unfold onMessageDelete
  cases s.Message c.ChannelID c.ID <;> simp [LogDelete, LogMessage, Log]

theorem onMessageDelete_length (s : State) (c : MessageDeleteEvent) :
    (onMessageDelete s c []).length = 1 := by
  unfold onMessageDelete
  cases s.Message c.ChannelID c.ID <;> simp [LogDelete, LogMessage, Log]

theorem foldl_bulkStep (s : State) (ch g : Nat) (ids : List Nat) (sink : Sink) :
    ids.foldl (bulkStep s ch g) sink
      = sink ++ (ids.map (fun id => onMessageDelete s ⟨id, ch, g⟩ [])).flatten := by
  induction ids generalizing sink with
  | nil => simp
  | cons id ids ih =>
    rw [List.foldl_cons, ih, bulkStep_eq_onMessageDelete, onMessageDelete_frame s ⟨id, ch, g⟩ sink]
    simp [List.append_assoc]

theorem flatten_singletons_length {α β : Type} (f : α → List β)
    (hf : ∀ x, (f x).length = 1) (l : List α) :
    (l.map f).flatten.length = l.length := by
  induction l with
  | nil => rfl
  | cons x l ih => simp [hf x, ih, Nat.add_comm]

theorem flatten_singletons_getElem? {α β : Type} (f : α → List β)
    (hf : ∀ x, (f x).length = 1) (l : List α) (k : Nat) (hk : k < l.length) :
    ((l.map f).flatten[k]?).toList = f l[k] := by
  induction l generalizing k with
  | nil => simp at hk
  | cons x l ih =>
    have hx := hf x
    match hfx : f x, hx with
    | [y], _ =>
      cases k with
      | zero => simp [hfx]
      | succ k =>
        have hk' : k < l.length := by simpa using hk
        simpa [hfx] using ih k hk'

theorem option_toList_inj {α : Type} {a b : Option α} (h : a.toList = b.toList) : a = b := by
  cases a <;> cases b <;> simp_all [Option.toList]

theorem onMessageDeleteBulk_eq (s : State) (c : MessageDeleteBulkEvent) (sink : Sink) :
    onMessageDeleteBulk s c sink
      = sink ++ (c.IDs.map (fun id => onMessageDelete s ⟨id, c.ChannelID, c.GuildID⟩ [])).flatten := by
  unfold onMessageDeleteBulk
  exact foldl_bulkStep s c.ChannelID c.GuildID c.IDs sink

theorem onMessageDelete_congr (s s' : State) (c : MessageDeleteEvent)
    (h : s'.Message c.ChannelID c.ID = s.Message c.ChannelID c.ID) :
    onMessageDelete s' c [] = onMessageDelete s c [] := by
  unfold onMessageDelete
  rw [h]

/-- C1: a Deleted event emits exactly one record.  On a cache hit `m` it is
the record with action "delete" whose id, channel, guild, type, flags,
timestamp, edited, author and content are those of `m`; on any lookup error
(not found or other) it is the record with action "delete" and the id,
channel and guild of the event, and nothing else.  The handler is a total
function: it has no failing outcome. -/
theorem onMessageDelete_emits (s : State) (c : MessageDeleteEvent) (sink : Sink) :
    (∀ m, s.Message c.ChannelID c.ID = .ok m →
      onMessageDelete s c sink = sink ++
        [⟨LevelInfo, "delete",
          [ ⟨"action", .String "delete"⟩, ⟨"id", .Uint64 m.ID⟩,
            ⟨"channel", .Uint64 m.ChannelID⟩, ⟨"guild", .Uint64 m.GuildID⟩,
            ⟨"type", .Uint64 m.MsgType⟩, ⟨"flags", .Int64 m.Flags⟩,
            ⟨"timestamp", .Time m.Timestamp.t⟩, ⟨"edited", .Time m.EditedTimestamp.t⟩,
            ⟨"author", .String m.Author.Username⟩, ⟨"content", .String m.Content⟩ ]⟩]) ∧
    (∀ e, s.Message c.ChannelID c.ID = .error e →
      onMessageDelete s c sink = sink ++
        [⟨LevelInfo, "delete",
          [ ⟨"action", .String "delete"⟩, ⟨"id", .Uint64 c.ID⟩,
            ⟨"channel", .Uint64 c.ChannelID⟩, ⟨"guild", .Uint64 c.GuildID⟩ ]⟩]) := by
  constructor
  · intro m h
    simp [onMessageDelete, h, LogMessage, Log, Timestamp.Time]
  · intro e h
    simp [onMessageDelete, h, LogDelete, Log]

/-- Witness of C1 on the fixture cache: a hit on (7, 42), a miss on (7, 43)
and a lookup error on (7, 44). -/
theorem onMessageDelete_emits_witness :
    onMessageDelete sampleState ⟨42, 7, 1⟩ [] =
        [⟨0, "delete",
          [ ⟨"action", .String "delete"⟩, ⟨"id", .Uint64 42⟩,
            ⟨"channel", .Uint64 7⟩, ⟨"guild", .Uint64 1⟩,
            ⟨"type", .Uint64 0⟩, ⟨"flags", .Int64 0⟩,
            ⟨"timestamp", .Time ⟨1700000000⟩⟩, ⟨"edited", .Time ⟨0⟩⟩,
            ⟨"author", .String "alice"⟩, ⟨"content", .String "hi"⟩ ]⟩] ∧
    onMessageDelete sampleState ⟨43, 7, 1⟩ [] =
        [⟨0, "delete",
          [ ⟨"action", .String "delete"⟩, ⟨"id", .Uint64 43⟩,
            ⟨"channel", .Uint64 7⟩, ⟨"guild", .Uint64 1⟩ ]⟩] ∧
    onMessageDelete sampleState ⟨44, 7, 1⟩ [] =
        [⟨0, "delete",
          [ ⟨"action", .String "delete"⟩, ⟨"id", .Uint64 44⟩,
            ⟨"channel", .Uint64 7⟩, ⟨"guild", .Uint64 1⟩ ]⟩] :=
  ⟨(onMessageDelete_emits sampleState ⟨42, 7, 1⟩ []).1 sampleMessage rfl,
   (onMessageDelete_emits sampleState ⟨43, 7, 1⟩ []).2 .notFound rfl,
   (onMessageDelete_emits sampleState ⟨44, 7, 1⟩ []).2 (.other "lookup failed") rfl⟩

/-- C2: a Created event and an Updated event each emit exactly one record,
with action "create" resp. "update" and with id, channel, guild, type, flags,
timestamp, edited, author (the username) and content equal to the fields of
the message carried by the event; the cache plays no part in the result. -/
theorem onMessageCreate_onMessageUpdate_emit (m : Message) (sink : Sink) :
    onMessageCreate ⟨m⟩ sink = sink ++
        [⟨LevelInfo, "create",
          [ ⟨"action", .String "create"⟩, ⟨"id", .Uint64 m.ID⟩,
            ⟨"channel", .Uint64 m.ChannelID⟩, ⟨"guild", .Uint64 m.GuildID⟩,
            ⟨"type", .Uint64 m.MsgType⟩, ⟨"flags", .Int64 m.Flags⟩,
            ⟨"timestamp", .Time m.Timestamp.t⟩, ⟨"edited", .Time m.EditedTimestamp.t⟩,
            ⟨"author", .String m.Author.Username⟩, ⟨"content", .String m.Content⟩ ]⟩] ∧
    onMessageUpdate ⟨m⟩ sink = sink ++
        [⟨LevelInfo, "update",
          [ ⟨"action", .String "update"⟩, ⟨"id", .Uint64 m.ID⟩,
            ⟨"channel", .Uint64 m.ChannelID⟩, ⟨"guild", .Uint64 m.GuildID⟩,
            ⟨"type", .Uint64 m.MsgType⟩, ⟨"flags", .Int64 m.Flags⟩,
            ⟨"timestamp", .Time m.Timestamp.t⟩, ⟨"edited", .Time m.EditedTimestamp.t⟩,
            ⟨"author", .String m.Author.Username⟩, ⟨"content", .String m.Content⟩ ]⟩] ∧
    (∀ s s' : State,
      dispatch s (.Created ⟨m⟩) sink = dispatch s' (.Created ⟨m⟩) sink ∧
      dispatch s (.Updated ⟨m⟩) sink = dispatch s' (.Updated ⟨m⟩) sink) :=
  ⟨rfl, rfl, fun _ _ => ⟨rfl, rfl⟩⟩

/-- C3: a BulkDeleted event with ids `[i1, ..., iN]` appends exactly N records
to the sink, in the order of the ids; the k-th record is the single record
that a Deleted event for `(ik, channel, guild)` emits against the same cache;
it is the same for every cache that answers the lookup of `ik` alike, so
forcing a miss on another id leaves it unchanged. -/
theorem onMessageDeleteBulk_emits (s : State) (c : MessageDeleteBulkEvent) (sink : Sink) :
    onMessageDeleteBulk s c sink = sink ++ onMessageDeleteBulk s c [] ∧
    (onMessageDeleteBulk s c []).length = c.IDs.length ∧
    (∀ (k : Nat) (hk : k < c.IDs.length),
      ((onMessageDeleteBulk s c [])[k]?).toList
        = onMessageDelete s ⟨c.IDs[k], c.ChannelID, c.GuildID⟩ []) ∧
    (∀ (s' : State) (k : Nat) (hk : k < c.IDs.length),
      s'.Message c.ChannelID c.IDs[k] = s.Message c.ChannelID c.IDs[k] →
      (onMessageDeleteBulk s' c [])[k]? = (onMessageDeleteBulk s c [])[k]?) ∧
    (∀ (j k : Nat) (hk : k < c.IDs.length), c.IDs[k] ≠ j →
      (onMessageDeleteBulk (forceMiss s c.ChannelID j) c [])[k]?
        = (onMessageDeleteBulk s c [])[k]?) := by
  have hlen : ∀ t : State, ∀ id, (onMessageDelete t ⟨id, c.ChannelID, c.GuildID⟩ []).length = 1 :=
    fun t id => onMessageDelete_length t _
  have hkth : ∀ (t : State) (k : Nat) (hk : k < c.IDs.length),
      ((onMessageDeleteBulk t c [])[k]?).toList
        = onMessageDelete t ⟨c.IDs[k], c.ChannelID, c.GuildID⟩ [] := by
    intro t k hk
    rw [onMessageDeleteBulk_eq, List.nil_append]
    exact flatten_singletons_getElem? _ (hlen t) c.IDs k hk
  have hlenB : ∀ t : State, (onMessageDeleteBulk t c []).length = c.IDs.length := by
    intro t
    rw [onMessageDeleteBulk_eq, List.nil_append]
    exact flatten_singletons_length _ (hlen t) c.IDs
  have hindep : ∀ (s' : State) (k : Nat) (hk : k < c.IDs.length),
      s'.Message c.ChannelID c.IDs[k] = s.Message c.ChannelID c.IDs[k] →
      (onMessageDeleteBulk s' c [])[k]? = (onMessageDeleteBulk s c [])[k]? := by
    intro s' k hk h
    apply option_toList_inj
    rw [hkth s' k hk, hkth s k hk]
    exact onMessageDelete_congr s s' ⟨c.IDs[k], c.ChannelID, c.GuildID⟩ h
  refine ⟨?_, hlenB s, hkth s, hindep, ?_⟩
  · rw [onMessageDeleteBulk_eq s c sink, onMessageDeleteBulk_eq s c [], List.nil_append]
  · intro j k hk hne
    apply hindep _ k hk
    simp [forceMiss, hne]

/-- Witness of C3 on the fixture cache with ids `[42, 43, 44]`: three
records, the second is the record of the single Deleted event for id 43, and
forcing a miss on id 42 leaves the second record unchanged. -/
theorem onMessageDeleteBulk_emits_witness :
    (onMessageDeleteBulk sampleState ⟨[42, 43, 44], 7, 1⟩ []).length = 3 ∧
    ((onMessageDeleteBulk sampleState ⟨[42, 43, 44], 7, 1⟩ [])[1]?).toList
      = onMessageDelete sampleState ⟨43, 7, 1⟩ [] ∧
    (onMessageDeleteBulk (forceMiss sampleState 7 42) ⟨[42, 43, 44], 7, 1⟩ [])[1]?
      = (onMessageDeleteBulk sampleState ⟨[42, 43, 44], 7, 1⟩ [])[1]? :=
  ⟨(onMessageDeleteBulk_emits sampleState ⟨[42, 43, 44], 7, 1⟩ []).2.1,
   (onMessageDeleteBulk_emits sampleState ⟨[42, 43, 44], 7, 1⟩ []).2.2.1 1 (by decide),
   (onMessageDeleteBulk_emits sampleState ⟨[42, 43, 44], 7, 1⟩ []).2.2.2.2 42 1
      (by decide) (by decide)⟩

/-- C7: the attribute-rewriting rule keeps the value of every attribute, for
every group path; it turns the key "level" into "severity" and keeps every
other key. -/
theorem ReplaceAttr_level_to_severity (groups : List String) (a : Attr) :
    (ReplaceAttr groups a).Value = a.Value ∧
    (ReplaceAttr groups a).Key = (if a.Key = "level" then "severity" else a.Key) ∧
    (a.Key = "level" → ReplaceAttr groups a = ⟨"severity", a.Value⟩) ∧
    (a.Key ≠ "level" → ReplaceAttr groups a = a) := by
  unfold ReplaceAttr
  by_cases h : a.Key = "level" <;> simp [h]

/-- Witness of C7: the level attribute is renamed, the message attribute and
an attribute named "severity" pass unchanged. -/
theorem ReplaceAttr_level_to_severity_witness :
    ReplaceAttr [] ⟨"level", .Level 0⟩ = ⟨"severity", .Level 0⟩ ∧
    ReplaceAttr ["g"] ⟨"msg", .String "delete"⟩ = ⟨"msg", .String "delete"⟩ :=
  ⟨(ReplaceAttr_level_to_severity [] ⟨"level", .Level 0⟩).2.2.1 rfl,
   (ReplaceAttr_level_to_severity ["g"] ⟨"msg", .String "delete"⟩).2.2.2 (by decide)⟩

theorem dispatch_frame (s : State) (ev : Event) (sink : Sink) :
    dispatch s ev sink = sink ++ dispatch s ev [] := by
  cases ev with
  | Created c => rfl
  | Updated c => rfl
  | Deleted c => exact onMessageDelete_frame s c sink
  | BulkDeleted c =>
    show onMessageDeleteBulk s c sink = sink ++ onMessageDeleteBulk s c []
    rw [onMessageDeleteBulk_eq s c sink, onMessageDeleteBulk_eq s c [], List.nil_append]

theorem onMessageDelete_invariant (s : State) (c : MessageDeleteEvent) :
    List.Forall₂ RecordInvariant
      (onMessageDelete s c []) [(s.Message c.ChannelID c.ID).toBool] := by
  unfold RecordInvariant
  unfold onMessageDelete
  cases h : s.Message c.ChannelID c.ID with
  | error e =>
    refine List.Forall₂.cons ⟨?_, ?_, ?_, ?_⟩ List.Forall₂.nil
    · simp [LogDelete, Log, Record.hasAction, actionTags]
    · simp [LogDelete, Log, Record.hasAll, Record.keys, idKeys]
    · right
      simp [LogDelete, Log, Record.hasNone, Record.keys, snapshotKeys]
    · simp [LogDelete, Log, Record.hasAll, Record.keys, snapshotKeys, Except.toBool]
  | ok m =>
    refine List.Forall₂.cons ⟨?_, ?_, ?_, ?_⟩ List.Forall₂.nil
    · simp [LogMessage, Log, Record.hasAction, actionTags]
    · simp [LogMessage, Log, Record.hasAll, Record.keys, idKeys]
    · left
      simp [LogMessage, Log, Record.hasAll, Record.keys, snapshotKeys]
    · simp [LogMessage, Log, Record.hasAll, Record.keys, snapshotKeys, Except.toBool]

theorem LogMessage_invariant (m : Message) (action : String) (h : action ∈ actionTags) :
    List.Forall₂ RecordInvariant (LogMessage m action []) [true] := by
  refine List.Forall₂.cons ⟨?_, ?_, ?_, ?_⟩ List.Forall₂.nil
  · simp only [actionTags, List.mem_cons, List.mem_singleton, List.not_mem_nil, or_false] at h
    rcases h with h | h | h <;> subst h <;> simp [Record.hasAction, actionTags]
  · simp [Record.hasAll, Record.keys, idKeys]
  · left
    simp [Record.hasAll, Record.keys, snapshotKeys]
  · simp [Record.hasAll, Record.keys, snapshotKeys]

theorem bulk_invariant (s : State) (ch g : Nat) (ids : List Nat) :
    List.Forall₂ RecordInvariant
      (ids.map (fun id => onMessageDelete s ⟨id, ch, g⟩ [])).flatten
      (ids.map (fun id => (s.Message ch id).toBool)) := by
  induction ids with
  | nil => exact List.Forall₂.nil
  | cons id ids ih =>
    have h := onMessageDelete_invariant s ⟨id, ch, g⟩
    simp only [List.map_cons, List.flatten_cons]
    generalize onMessageDelete s ⟨id, ch, g⟩ [] = l at h
    cases h with
    | cons hr hnil =>
      cases hnil
      exact List.Forall₂.cons hr ih

/-- C8: every record emitted by the handlers of Created, Updated, Deleted and
BulkDeleted events satisfies the LogRecord invariant: the emitted records
correspond one to one, in order, to the resolution outcomes of the event, and
each record has an action out of "create", "update", "delete", carries id,
channel and guild, and carries the snapshot fields type, flags, timestamp,
edited, author and content (all of them, else none) exactly when its
resolution succeeded. -/
theorem dispatch_record_invariant (s : State) (ev : Event) (sink : Sink) :
    dispatch s ev sink = sink ++ dispatch s ev [] ∧
    List.Forall₂ RecordInvariant (dispatch s ev []) (resolutionSucceeded s ev) := by
  refine ⟨dispatch_frame s ev sink, ?_⟩
  cases ev with
  | Created c => exact LogMessage_invariant c.Message "create" (by simp [actionTags])
  | Updated c => exact LogMessage_invariant c.Message "update" (by simp [actionTags])
  | Deleted c => exact onMessageDelete_invariant s c
  | BulkDeleted c =>
    show List.Forall₂ RecordInvariant (onMessageDeleteBulk s c []) _
    rw [onMessageDeleteBulk_eq, List.nil_append]
    exact bulk_invariant s c.ChannelID c.GuildID c.IDs

/-! ## Teardown: theorems -/

theorem CancelCause_cleanup (cli : CLI) (cause : String) :
    (CancelCause cli cause).cleanup = cli.cleanup := by
  unfold CancelCause
  cases cli.cause <;> rfl

theorem PostRunE_cleanup (cli : CLI) (w : World) :
    (PostRunE cli w).cli.cleanup = cli.cleanup.reverse := by
  unfold PostRunE
  simp only [CancelCause_cleanup]
  cases runCleanup cli.cleanup.reverse w <;> rfl

theorem runCleanup_returns (fs : List (World → World)) (w : World) :
    runCleanup (fs.map returns) w = .returned (fs.foldl (fun w f => f w) w) := by
  induction fs generalizing w with
  | nil => rfl
  | cons f fs ih => simp [runCleanup, returns, ih]

theorem runCleanup_returns_append (fs : List (World → World)) (gs : List Func) (w : World) :
    runCleanup (fs.map returns ++ gs) w = runCleanup gs (fs.foldl (fun w f => f w) w) := by
  induction fs generalizing w with
  | nil => rfl
  | cons f fs ih => simp [runCleanup, returns, ih]

theorem PostRunE_returns (cause : Option String) (fs : List (World → World)) (w : World) :
    PostRunE ⟨cause, fs.map returns⟩ w
      = { cli := ⟨(CancelCause ⟨cause, fs.map returns⟩ "context canceled").cause,
                  (fs.map returns).reverse⟩,
          world := fs.foldr (fun f w => f w) w, err := none, panic := none } := by
  unfold PostRunE
  simp only [CancelCause_cleanup]
  rw [← List.map_reverse, runCleanup_returns, List.foldl_reverse]

theorem PostRunE_world (cause : Option String) (fs : List (World → World)) (w : World) :
    (PostRunE ⟨cause, fs.map returns⟩ w).world = fs.foldr (fun f w => f w) w := by
  rw [PostRunE_returns]

theorem map_mark (names : List String) :
    names.map mark = (names.map (fun n => fun (w : World) => w ++ [Effect.call n])).map returns := by
  simp [mark, List.map_map, Function.comp_def]

theorem foldr_mark (names : List String) (w : World) :
    (names.map (fun n => fun (w : World) => w ++ [Effect.call n])).foldr (fun f w => f w) w
      = w ++ names.reverse.map Effect.call := by
  induction names with
  | nil => simp
  | cons n names ih => simp [ih]

theorem foldl_mark (names : List String) (w : World) :
    (names.map (fun n => fun (w : World) => w ++ [Effect.call n])).foldl (fun w f => f w) w
      = w ++ names.map Effect.call := by
  induction names generalizing w with
  | nil => simp
  | cons n names ih => simp [ih]

theorem PostRunE_mark (cause : Option String) (names : List String) (w : World) :
    (PostRunE ⟨cause, names.map mark⟩ w).world = w ++ names.reverse.map Effect.call := by
  rw [map_mark, PostRunE_world]
  exact foldr_mark names w

theorem gelfCloseAction_eq (Close : World → World × Option String) :
    gelfCloseAction Close = returns (closeEffect Close) := by
  funext w
  unfold gelfCloseAction returns closeEffect
  rcases Close w with ⟨w1, e⟩
  cases e <;> rfl

theorem map_closers (acts : List (String × Option String)) :
    acts.map (fun a => gelfCloseAction (closer a.1 a.2))
      = (acts.map (fun a => closeEffect (closer a.1 a.2))).map returns := by
  simp [gelfCloseAction_eq, List.map_map, Function.comp_def]

theorem calls_append (w w' : World) : calls (w ++ w') = calls w ++ calls w' := by
  induction w with
  | nil => rfl
  | cons e w ih => cases e <;> simp [calls, ih]

theorem logs_append (w w' : World) : logs (w ++ w') = logs w ++ logs w' := by
  induction w with
  | nil => rfl
  | cons e w ih => cases e <;> simp [logs, ih]

theorem calls_closeEffect (name : String) (err : Option String) (w : World) :
    calls (closeEffect (closer name err) w) = calls w ++ [name] := by
  cases err <;> simp [closeEffect, closer, calls_append, calls]

theorem logs_closeEffect (name : String) (err : Option String) (w : World) :
    logs (closeEffect (closer name err) w)
      = logs w ++ (err.map (fun e => "failed to close gelf writer: " ++ e)).toList := by
  cases err <;> simp [closeEffect, closer, logs_append, logs]

theorem calls_foldr_closers (acts : List (String × Option String)) (w : World) :
    calls ((acts.map (fun a => closeEffect (closer a.1 a.2))).foldr (fun f w => f w) w)
      = calls w ++ acts.reverse.map (fun a => a.1) := by
  induction acts with
  | nil => simp
  | cons a acts ih => simp [calls_closeEffect, ih]

theorem logs_foldr_closers (acts : List (String × Option String)) (w : World) :
    logs ((acts.map (fun a => closeEffect (closer a.1 a.2))).foldr (fun f w => f w) w)
      = logs w ++ acts.reverse.filterMap
          (fun a => a.2.map (fun e => "failed to close gelf writer: " ++ e)) := by
  induction acts with
  | nil => simp
  | cons a acts ih =>
    rcases a with ⟨n, e⟩
    cases e <;> simp [logs_closeEffect, ih, List.filterMap_append]

theorem PostRunE_panics (cause : Option String) (before : List Func)
    (after : List (World → World)) (name value : String) (w : World) :
    (PostRunE ⟨cause, before ++ [panics name value] ++ after.map returns⟩ w).world
        = after.foldr (fun f w => f w) w ++ [.call name] ∧
    (PostRunE ⟨cause, before ++ [panics name value] ++ after.map returns⟩ w).panic
        = some value := by
  unfold PostRunE
  simp only [CancelCause_cleanup, List.reverse_append, List.reverse_cons, List.reverse_nil,
    List.nil_append, ← List.map_reverse, List.append_assoc]
  rw [runCleanup_returns_append]
  simp [runCleanup, panics, List.foldl_reverse]

/-- C4: one run of teardown calls every registered cleanup action exactly
once, the last registered first: for actions that return, the environment
after `PostRunE` is `a1 (a2 (... (an w)))` and `PostRunE` returns nil, and for
actions that record their own name the trace grows by the names in reverse
order of registration; `[A, B, C]` runs as `[C, B, A]`. -/
theorem PostRunE_reverse_order (cause : Option String) (fs : List (World → World))
    (names : List String) (w : World) :
    (PostRunE ⟨cause, fs.map returns⟩ w).world = fs.foldr (fun f w => f w) w ∧
    (PostRunE ⟨cause, fs.map returns⟩ w).err = none ∧
    (PostRunE ⟨cause, fs.map returns⟩ w).panic = none ∧
    (PostRunE ⟨cause, names.map mark⟩ w).world = w ++ names.reverse.map Effect.call ∧
    (PostRunE ⟨cause, [mark "A", mark "B", mark "C"]⟩ w).world
      = w ++ [.call "C", .call "B", .call "A"] := by
  refine ⟨PostRunE_world cause fs w, ?_, ?_, PostRunE_mark cause names w,
    PostRunE_mark cause ["A", "B", "C"] w⟩
  · rw [PostRunE_returns]
  · rw [PostRunE_returns]

/-- Counterexample to C5: actions registered as A, B, C where B fails by
panicking.  Teardown runs C, then B, and ends there: A is never executed and
`PostRunE` does not return nil but is left by the panic. -/
theorem PostRunE_panic_aborts_cleanup :
    (PostRunE ⟨none, [mark "A", panics "B" "close of closed writer", mark "C"]⟩ []).world
      = [.call "C", .call "B"] ∧
    (PostRunE ⟨none, [mark "A", panics "B" "close of closed writer", mark "C"]⟩ []).panic
      = some "close of closed writer" ∧
    "A" ∉ calls
      (PostRunE ⟨none, [mark "A", panics "B" "close of closed writer", mark "C"]⟩ []).world := by
  refine ⟨rfl, rfl, ?_⟩
  decide

/-- C5 as amended: a cleanup action whose failure is an error that the
action handles itself stops nothing.  For every list of close actions,
whatever each `Close` returns, teardown calls all of them (in reverse order
of registration), logs exactly the failures, and `PostRunE` returns nil; for
`[A, B, C]` with arbitrary returning `A`, `C` and a `B` whose `Close` fails,
`A` still runs, after the failure of `B` has been logged.  A cleanup action
that panics ends teardown: the actions registered after it have run, the
actions registered before it are not executed, and `PostRunE` does not
return. -/
theorem PostRunE_handled_failures (cause : Option String)
    (acts : List (String × Option String)) (w : World) :
    (PostRunE ⟨cause, acts.map (fun a => gelfCloseAction (closer a.1 a.2))⟩ w).err = none ∧
    (PostRunE ⟨cause, acts.map (fun a => gelfCloseAction (closer a.1 a.2))⟩ w).panic = none ∧
    calls (PostRunE ⟨cause, acts.map (fun a => gelfCloseAction (closer a.1 a.2))⟩ w).world
      = calls w ++ acts.reverse.map (fun a => a.1) ∧
    logs (PostRunE ⟨cause, acts.map (fun a => gelfCloseAction (closer a.1 a.2))⟩ w).world
      = logs w ++ acts.reverse.filterMap
          (fun a => a.2.map (fun e => "failed to close gelf writer: " ++ e)) ∧
    (∀ (A C : World → World) (Close : World → World × Option String) (e : String),
      (Close (C w)).2 = some e →
      (PostRunE ⟨cause, [returns A, gelfCloseAction Close, returns C]⟩ w).err = none ∧
      (PostRunE ⟨cause, [returns A, gelfCloseAction Close, returns C]⟩ w).panic = none ∧
      (PostRunE ⟨cause, [returns A, gelfCloseAction Close, returns C]⟩ w).world
        = A ((Close (C w)).1 ++ [.log ("failed to close gelf writer: " ++ e)])) ∧
    (∀ (before : List Func) (after : List (World → World)) (name value : String),
      (PostRunE ⟨cause, before ++ [panics name value] ++ after.map returns⟩ w).world
          = after.foldr (fun f w => f w) w ++ [.call name] ∧
      (PostRunE ⟨cause, before ++ [panics name value] ++ after.map returns⟩ w).panic
          = some value) := by
  refine ⟨?_, ?_, ?_, ?_, ?_, ?_⟩
  · rw [map_closers, PostRunE_returns]
  · rw [map_closers, PostRunE_returns]
  · rw [map_closers, PostRunE_world]
    exact calls_foldr_closers acts w
  · rw [map_closers, PostRunE_world]
    exact logs_foldr_closers acts w
  · intro A C Close e h
    have hl : [returns A, gelfCloseAction Close, returns C]
        = [A, closeEffect Close, C].map returns := by
      simp [gelfCloseAction_eq]
    rw [hl, PostRunE_returns]
    refine ⟨rfl, rfl, ?_⟩
    simp only [List.foldr_cons, List.foldr_nil, closeEffect]
    rcases hc : Close (C w) with ⟨w1, r⟩
    rw [hc] at h
    simp only at h
    subst h
    rfl
  · intro before after name value
    exact PostRunE_panics cause before after name value w

/-- Witness of C5 as amended: actions registered as A, B, C where closing B
returns an error; the trace shows C, then B with its failure logged, then A,
and `PostRunE` returns nil. -/
theorem PostRunE_handled_failures_witness :
    (PostRunE ⟨none, [returns (fun w => w ++ [.call "A"]),
        gelfCloseAction (closer "B" (some "broken pipe")),
        returns (fun w => w ++ [.call "C"])]⟩ []).err = none ∧
    (PostRunE ⟨none, [returns (fun w => w ++ [.call "A"]),
        gelfCloseAction (closer "B" (some "broken pipe")),
        returns (fun w => w ++ [.call "C"])]⟩ []).panic = none ∧
    (PostRunE ⟨none, [returns (fun w => w ++ [.call "A"]),
        gelfCloseAction (closer "B" (some "broken pipe")),
        returns (fun w => w ++ [.call "C"])]⟩ []).world
      = [.call "C", .call "B", .log "failed to close gelf writer: broken pipe", .call "A"] :=
  (PostRunE_handled_failures none [] []).2.2.2.2.1 (fun w => w ++ [.call "A"])
    (fun w => w ++ [.call "C"]) (closer "B" (some "broken pipe")) "broken pipe" rfl

/-- Counterexample to C6: with actions A and B registered, the first
teardown runs B then A and leaves both in the list; a second teardown does
not leave the environment alone but runs A and B again. -/
theorem PostRunE_second_run_executes_again :
    (PostRunE ⟨none, [mark "A", mark "B"]⟩ []).world = [.call "B", .call "A"] ∧
    (PostRunE ⟨none, [mark "A", mark "B"]⟩ []).cli.cleanup.length = 2 ∧
    (PostRunE (PostRunE ⟨none, [mark "A", mark "B"]⟩ []).cli
        (PostRunE ⟨none, [mark "A", mark "B"]⟩ []).world).world
      = [.call "B", .call "A", .call "A", .call "B"] ∧
    ¬ ((PostRunE (PostRunE ⟨none, [mark "A", mark "B"]⟩ []).cli
        (PostRunE ⟨none, [mark "A", mark "B"]⟩ []).world).world
      = (PostRunE ⟨none, [mark "A", mark "B"]⟩ []).world) := by
  refine ⟨rfl, rfl, rfl, ?_⟩
  decide

/-- C6 as amended: one run of teardown calls every registered action exactly
once; it does not drain the cleanup list but leaves it reversed in place, so
a second `PostRunE` calls every registered action once more, in registration
order, and restores the original order of the list. -/
theorem PostRunE_twice (cause : Option String) (gs : List Func)
    (fs : List (World → World)) (names : List String) (w w' : World) :
    (PostRunE ⟨cause, names.map mark⟩ w).world = w ++ names.reverse.map Effect.call ∧
    (PostRunE ⟨cause, gs⟩ w).cli.cleanup = gs.reverse ∧
    (PostRunE (PostRunE ⟨cause, fs.map returns⟩ w).cli w').world
      = fs.foldl (fun w f => f w) w' ∧
    (PostRunE (PostRunE ⟨cause, gs⟩ w).cli w').cli.cleanup = gs ∧
    (PostRunE (PostRunE ⟨cause, names.map mark⟩ w).cli w').world
      = w' ++ names.map Effect.call := by
  have second : ∀ (hs : List (World → World)),
      (PostRunE (PostRunE ⟨cause, hs.map returns⟩ w).cli w').world
        = hs.foldl (fun w f => f w) w' := by
    intro hs
    rw [PostRunE_returns]
    simp only [← List.map_reverse]
    rw [PostRunE_world, List.foldr_reverse]
  refine ⟨PostRunE_mark cause names w, PostRunE_cleanup _ w, second fs, ?_, ?_⟩
  · rw [PostRunE_cleanup, PostRunE_cleanup, List.reverse_reverse]
  · rw [map_mark, second]
    exact foldl_mark names w'

/-! ## Configuration: theorems -/

theorem selectLoop_valid_start (parse : String → Except String Addr) (ips : List String)
    (hparse : ∀ ip ∈ ips, ∃ a, parse ip = .ok a ∧ a.IsValid = true)
    (sel0 : Addr) (h0 : sel0.IsValid = true) :
    ∃ sel, selectLoop parse sel0 ips = .ok sel ∧ sel.IsValid = true ∧
      (sel = sel0 ∨ ∃ ip ∈ ips, parse ip = .ok sel) ∧
      (sel.Is4Like = false →
        sel = sel0 ∧ ∀ ip ∈ ips, ∀ a, parse ip = .ok a → a.Is4Like = false) := by
  induction ips generalizing sel0 with
  | nil => exact ⟨sel0, rfl, h0, Or.inl rfl, fun _ => ⟨rfl, by simp⟩⟩
  | cons ip ips ih =>
    obtain ⟨a, ha, hav⟩ := hparse ip (by simp)
    have hrest : ∀ ip' ∈ ips, ∃ a, parse ip' = .ok a ∧ a.IsValid = true :=
      fun ip' h => hparse ip' (by simp [h])
    by_cases hlike : a.Is4Like = true
    · obtain ⟨sel, hsel, hv, hmem, hno⟩ := ih hrest a hav
      refine ⟨sel, ?_, hv, ?_, ?_⟩
      · have hl : (a.Is4 || a.Is4In6) = true := hlike
        simp [selectLoop, ha, h0, hl, hsel]
      · rcases hmem with h | ⟨ip', hip', hp⟩
        · exact Or.inr ⟨ip, by simp, h ▸ ha⟩
        · exact Or.inr ⟨ip', by simp [hip'], hp⟩
      · intro hs
        obtain ⟨he, _⟩ := hno hs
        rw [he] at hs
        rw [hs] at hlike
        exact absurd hlike (by decide)
    · obtain ⟨sel, hsel, hv, hmem, hno⟩ := ih hrest sel0 h0
      have hl : (a.Is4 || a.Is4In6) = false := by
        simpa [Addr.Is4Like] using hlike
      refine ⟨sel, ?_, hv, ?_, ?_⟩
      · simp [selectLoop, ha, h0, hl, hsel]
      · rcases hmem with h | ⟨ip', hip', hp⟩
        · exact Or.inl h
        · exact Or.inr ⟨ip', by simp [hip'], hp⟩
      · intro hs
        obtain ⟨he, hall⟩ := hno hs
        refine ⟨he, ?_⟩
        intro ip' hip' a' ha'
        rcases List.mem_cons.mp hip' with h | h
        · subst h
          rw [ha] at ha'
          cases ha'
          simpa [Addr.Is4Like] using hl
        · exact hall ip' h a' ha'

theorem selectLoop_zero_start (parse : String → Except String Addr) (ips : List String)
    (hne : ips ≠ [])
    (hparse : ∀ ip ∈ ips, ∃ a, parse ip = .ok a ∧ a.IsValid = true) :
    ∃ sel, selectLoop parse .zero ips = .ok sel ∧ sel.IsValid = true ∧
      (∃ ip ∈ ips, parse ip = .ok sel) ∧
      (sel.Is4Like = false →
        ips.head?.map parse = some (.ok sel) ∧
        ∀ ip ∈ ips, ∀ a, parse ip = .ok a → a.Is4Like = false) := by
  cases ips with
  | nil => exact absurd rfl hne
  | cons ip ips =>
    obtain ⟨a, ha, hav⟩ := hparse ip (by simp)
    have hrest : ∀ ip' ∈ ips, ∃ a, parse ip' = .ok a ∧ a.IsValid = true :=
      fun ip' h => hparse ip' (by simp [h])
    by_cases h4 : a.Is4 = true
    · refine ⟨a, ?_, hav, ⟨ip, by simp, ha⟩, ?_⟩
      · simp [selectLoop, ha, Addr.IsValid, h4]
      · intro hs
        simp [Addr.Is4Like, h4] at hs
    · obtain ⟨sel, hsel, hv, hmem, hno⟩ := selectLoop_valid_start parse ips hrest a hav
      refine ⟨sel, ?_, hv, ?_, ?_⟩
      · simp [selectLoop, ha, Addr.IsValid, h4, hsel]
      · rcases hmem with h | ⟨ip', hip', hp⟩
        · exact ⟨ip, by simp, h ▸ ha⟩
        · exact ⟨ip', by simp [hip'], hp⟩
      · intro hs
        obtain ⟨he, hall⟩ := hno hs
        subst he
        refine ⟨by simp [ha], ?_⟩
        intro ip' hip' a' ha'
        rcases List.mem_cons.mp hip' with h | h
        · subst h
          rw [ha] at ha'
          cases ha'
          exact hs
        · exact hall ip' h a' ha'

/-- Counterexample to C9.  The host resolves to `::1`, `1.2.3.4`,
`::ffff:5.6.7.8`: the list contains the IPv4 address `1.2.3.4`, yet the
address chosen for `GraylogAddress` is the IPv4-mapped IPv6 address
`::ffff:5.6.7.8`, for which `Is4` is false.  And when the host resolves to
`1.2.3.4`, `::1` the first resolved address is chosen although the list
contains an IPv4 address. -/
theorem Validate_selection_not_Is4 :
    sampleParseAddr "1.2.3.4" = .ok (.v4 0x01020304) ∧
    (Addr.v4 0x01020304).Is4 = true ∧
    selectLoop sampleParseAddr .zero ["::1", "1.2.3.4", "::ffff:5.6.7.8"]
      = .ok (.v6 0 0xffff05060708 "") ∧
    (Addr.v6 0 0xffff05060708 "").Is4 = false ∧
    Validate (sampleNet ["::1", "1.2.3.4", "::ffff:5.6.7.8"]) ⟨"x", false, "graylog:12201"⟩
      = (⟨"x", false, "[::ffff:5.6.7.8]:12201"⟩, none) ∧
    selectLoop sampleParseAddr .zero ["1.2.3.4", "::1"] = .ok (.v4 0x01020304) ∧
    Validate (sampleNet ["1.2.3.4", "::1"]) ⟨"x", false, "graylog:12201"⟩
      = (⟨"x", false, "1.2.3.4:12201"⟩, none) := by
  refine ⟨rfl, rfl, rfl, rfl, ?_, rfl, ?_⟩ <;> decide

/-- C9 as amended: when the token is not empty, the address splits into host
and port, the host resolves to a non-empty list and every resolved address
parses, `Validate` succeeds and sets `GraylogAddress` to the chosen address
joined with the port.  The chosen address is one of the resolved addresses;
if the list contains at least one address that is IPv4 or IPv4-mapped IPv6
then the chosen address is IPv4 or IPv4-mapped IPv6; an address that is
neither is chosen only when the list contains no such address, and it is then
the first resolved address. -/
theorem Validate_selects_Is4Like (net : Net) (cfg : Config) (host port : String)
    (ips : List String)
    (htok : cfg.DiscordToken ≠ "")
    (hsplit : SplitN2 cfg.GraylogAddress = [host, port])
    (hlookup : net.LookupHost host = .ok ips)
    (hne : ips ≠ [])
    (hparse : ∀ ip ∈ ips, ∃ a, net.ParseAddr ip = .ok a ∧ a.IsValid = true) :
    ∃ sel, selectLoop net.ParseAddr .zero ips = .ok sel ∧
      Validate net cfg
        = ({ DiscordToken := normalizeToken cfg.DiscordToken cfg.IsBot,
             IsBot := cfg.IsBot,
             GraylogAddress := JoinHostPort (net.AddrString sel) port }, none) ∧
      (∃ ip ∈ ips, net.ParseAddr ip = .ok sel) ∧
      ((∃ ip ∈ ips, ∃ a, net.ParseAddr ip = .ok a ∧ a.Is4Like = true) →
        sel.Is4Like = true) ∧
      (sel.Is4Like = false →
        ips.head?.map net.ParseAddr = some (.ok sel) ∧
        ∀ ip ∈ ips, ∀ a, net.ParseAddr ip = .ok a → a.Is4Like = false) := by
  obtain ⟨sel, hsel, hv, hmem, hno⟩ := selectLoop_zero_start net.ParseAddr ips hne hparse
  refine ⟨sel, hsel, ?_, hmem, ?_, hno⟩
  · simp [Validate, htok, hsplit, hlookup, hsel, hv]
  · rintro ⟨ip, hip, a, ha, hlike⟩
    by_contra hs
    have hs' : sel.Is4Like = false := by simpa using hs
    have := (hno hs').2 ip hip a ha
    rw [this] at hlike
    exact absurd hlike (by decide)

/-- Witness of C9 as amended: the host resolves to `::1`, `1.2.3.4`,
`::ffff:5.6.7.8`; the chosen address is IPv4 or IPv4-mapped. -/
theorem Validate_selects_Is4Like_witness :
    ∃ sel, selectLoop sampleParseAddr .zero ["::1", "1.2.3.4", "::ffff:5.6.7.8"] = .ok sel ∧
      Validate (sampleNet ["::1", "1.2.3.4", "::ffff:5.6.7.8"]) ⟨"x", false, "graylog:12201"⟩
        = (⟨"x", false, JoinHostPort (sampleAddrString sel) "12201"⟩, none) ∧
      sel.Is4Like = true := by
  obtain ⟨sel, h1, h2, _, h4, _⟩ :=
    Validate_selects_Is4Like (sampleNet ["::1", "1.2.3.4", "::ffff:5.6.7.8"])
      ⟨"x", false, "graylog:12201"⟩ "graylog" "12201" ["::1", "1.2.3.4", "::ffff:5.6.7.8"]
      (by decide) (by decide) rfl (by decide)
      (by
        intro ip hip
        simp only [List.mem_cons, List.mem_singleton, List.not_mem_nil, or_false] at hip
        rcases hip with h | h | h <;> subst h
        · exact ⟨.v6 0 1 "", rfl, rfl⟩
        · exact ⟨.v4 0x01020304, rfl, rfl⟩
        · exact ⟨.v6 0 0xffff05060708 "", rfl, rfl⟩)
  exact ⟨sel, h1, h2, h4 ⟨"1.2.3.4", by simp, .v4 0x01020304, rfl, rfl⟩⟩

/-- C10, the code at the failing inputs: `Validate` trims every leading
character out of the set B, o, t, space instead of the leading "Bot ".  The
token "tok123" without the bot flag becomes "k123"; the token "Boot" becomes
the empty string; the token "Bot Bot123" with the bot flag becomes "Bot 123"
where removing one leading "Bot " gives "Bot Bot123". -/
theorem Validate_token_cutset :
    Validate (sampleNet ["127.0.0.1"]) ⟨"tok123", false, "graylog:12201"⟩
      = (⟨"k123", false, "127.0.0.1:12201"⟩, none) ∧
    Validate (sampleNet ["127.0.0.1"]) ⟨"Boot", false, "graylog:12201"⟩
      = (⟨"", false, "127.0.0.1:12201"⟩, none) ∧
    Validate (sampleNet ["127.0.0.1"]) ⟨"Bot Bot123", true, "graylog:12201"⟩
      = (⟨"Bot 123", true, "127.0.0.1:12201"⟩, none) ∧
    Validate (sampleNet ["127.0.0.1"]) ⟨"Bot 123", true, "graylog:12201"⟩
      = (⟨"Bot 123", true, "127.0.0.1:12201"⟩, none) := by
  refine ⟨?_, ?_, ?_, ?_⟩ <;> decide

end DiscordLog
